import Mathlib

/-!
Verification of the MOSAiC flux-data ingestion pipeline
(`get_data_functions.py` and `plot_scripts/plot_asfs_lev1_quicklooks.py`).

The embedding models pandas DataFrames as an index list plus named columns,
days as natural numbers (consecutive days are consecutive numbers, with an
injective `dateStr` rendering standing for `strftime`), and the filesystem as
functions from paths to optional parsed contents.  Python exceptions are
modelled by `Except PyErr`; the observable operational steps of
`get_flux_data` (cache lookup, per-unit process launches, per-unit queue
drains, pickle store) are recorded in an event trace.
-/

/-- A cell value of a table: either a number read from a file or a timestamp
copied from the index (as produced by the `df['time'] = df.index` step). -/
inductive Value
  | num : Int → Value
  | time : Nat → Value
deriving DecidableEq, Repr

/-- A pandas DataFrame: a timestamp index and named columns.  Each column
holds one optional cell per index position (missing cells are NaN). -/
structure DataFrame where
  idx : List Nat
  cols : List (String × List (Option Value))
deriving DecidableEq, Repr

/-- The frame `pd.DataFrame()`: no rows, no columns. -/
def emptyDF : DataFrame := ⟨[], []⟩

/-- `df.empty`: true when either axis has length zero. -/
def DataFrame.isEmpty (df : DataFrame) : Bool :=
  df.idx.isEmpty || df.cols.isEmpty

/-- Retrieve the cells of the first column with the given name. -/
def lookupCol (df : DataFrame) (n : String) : Option (List (Option Value)) :=
  (df.cols.find? (fun p => p.1 == n)).map (fun p => p.2)

/-- Python exceptions that the modelled code can raise. -/
inductive PyErr
  | ioError
  | nameError
  | valueError
  | fileNotFound
  | typeError
  | zeroDivision
deriving DecidableEq, Repr

/-- The two messages a unit fetcher publishes on its queue: the table and the
optional version tag. -/
structure UnitResult where
  rows : DataFrame
  version : Option String
deriving DecidableEq, Repr

/-- Observable operational steps of `get_flux_data`. -/
inductive Event
  | cacheLookup
  | spawn (path : String) (day : Nat)
  | drain (r : UnitResult)
  | store (filename : String)
deriving DecidableEq, Repr

/-- The recognised stations (`station_list` in `get_flux_data`). -/
def station_list : List String := ["tower", "asfs30", "asfs40", "asfs50"]

/-- The stations merged by the quicklook plot script (`sleds_to_plot`). -/
def sleds_to_plot : List String := ["asfs30", "asfs40", "asfs50"]

/-- `today.strftime('%Y%m%d.%H%M%S')`: an injective rendering of a day. -/
def dateStr (d : Nat) : String := toString d

/-- The cache key `f'{station}_{level}_{data_type}_df'`. -/
def pickled_filename (station : String) (level : Nat) (data_type : String) : String :=
  station ++ "_" ++ toString level ++ "_" ++ data_type ++ "_df"

/-- The basename written by `df.to_pickle(f"{pickle_dir}/{pickled_filename}_{code_version[0:3]}.pkl")`. -/
def pickle_store_name (key code_version : String) : String :=
  key ++ "_" ++ code_version.take 3 ++ ".pkl"

/-- Split a character list at the last occurrence of `c`: returns the parts
before and after it, or `none` when `c` does not occur. -/
def rpartSplit (c : Char) : List Char → Option (List Char × List Char)
  | [] => none
  | x :: xs =>
    match rpartSplit c xs with
    | some (b, a) => some (x :: b, a)
    | none => if x = c then some ([], xs) else none

/-- Python `s.rpartition(c)`: `(head, separator, tail)` split at the last
occurrence of `c`, or `('', '', s)` when `c` does not occur. -/
def rpartition (s : String) (c : Char) : String × String × String :=
  match rpartSplit c s.data with
  | some (b, a) => (⟨b⟩, ⟨[c]⟩, ⟨a⟩)
  | none => ("", "", s)

/-- The version string rebuilt from a pickle filename on a cache hit:
`name_words = filename.rpartition('_')[-1].rpartition('.')` followed by
`code_version = f"{name_words[0]}.{name_words[1]}"`. -/
def reconstructVersion (filename : String) : String :=
  let tail := (rpartition filename '_').2.2
  let name_words := rpartition tail '.'
  name_words.1 ++ "." ++ name_words.2.1

/-- The running version tag after processing a list of per-unit tags in
order: every non-null tag overwrites the running value
(`if cv!=None: code_version = cv`). -/
def reconcileVersion (init : Option String) (vs : List (Option String)) : Option String :=
  vs.foldl (fun acc cv => match cv with | some v => some v | none => acc) init

/-- The unit fetcher `get_datafile(curr_file, curr_station, today, q)`.  The
filesystem `fs` maps a path to the parsed table and version attribute when
the file exists.  The returned pair is the two messages put on the queue. -/
def get_datafile (fs : String → Option (DataFrame × String))
    (curr_file curr_station : String) (today : Nat) : UnitResult :=
  match fs curr_file with
  | some (d, v) => ⟨d, some v⟩
  | none => ⟨emptyDF, none⟩

/-- One iteration of the path construction in `get_flux_data`'s day loop
(lines 84-98).  `level_str` is a local Python variable that persists across
iterations and is unbound (`none`) on entry to the first one; reading it
while unbound raises `UnboundLocalError` (modelled as `nameError`).  For
levels 2 and 3 it is assigned only after `subdir` has been built. -/
def locateStep (level_str : Option String) (station : String) (level : Nat)
    (data_dir data_type date_str : String) : Except PyErr (String × Option String) :=
  let level_str := if level == 1 then some "ingest" else level_str
  match level_str with
  | none => .error .nameError
  | some ls =>
    let subdir := "/" ++ toString level ++ "_level_" ++ ls ++ "_" ++ station ++ "/"
    let file_str := "/mos" ++ station ++ data_type ++ ".level" ++ toString level ++ "." ++ date_str ++ ".nc"
    let subdir := if station == "tower" then "/" ++ toString level ++ "_level_" ++ ls ++ "/" else subdir
    let file_str := if station == "tower" then "/mosflx" ++ station ++ data_type ++ ".level" ++ toString level ++ "." ++ date_str ++ ".nc" else file_str
    let level_str := if level == 2 then some "product" else some ls
    let level_str := if level == 3 then some "archive" else level_str
    let files_dir := data_dir ++ station ++ subdir
    let curr_file := files_dir ++ file_str
    .ok (curr_file, level_str)

/-- The file path built for one day at level 1 (where the construction
always succeeds). -/
def path_level1 (station data_dir data_type date_str : String) : String :=
  match locateStep none station 1 data_dir data_type date_str with
  | .ok (p, _) => p
  | .error _ => ""

/-- `pd.date_range(start_day, end_day)`: the inclusive day range, empty when
`start_day > end_day`. -/
def day_series (start_day end_day : Nat) : List Nat :=
  (List.range (end_day + 1 - start_day)).map (fun i => start_day + i)

/-- Loop state of the fetch phase: the accumulated non-empty tables, the
running version tag, and the recorded event trace. -/
structure FluxAcc where
  df_list : List DataFrame
  code_version : Option String
  events : List Event
deriving DecidableEq, Repr

/-- Drain every queue of the current batch in submission order (lines
104-112): read the table and tag of each unit, let a non-null tag overwrite
the running one, and keep non-empty tables. -/
def drainQ (q_list : List UnitResult) (acc : FluxAcc) : FluxAcc :=
  q_list.foldl (fun a r =>
    { df_list := if !r.rows.isEmpty then a.df_list ++ [r.rows] else a.df_list
      code_version := match r.version with | some v => some v | none => a.code_version
      events := a.events ++ [.drain r] }) acc

/-- The day loop of `get_flux_data` (lines 79-112): for each day build the
path, launch a unit fetch, and at every batch boundary — `(i_day+1)` a
multiple of `nthreads` or the day equal to the last of the range — drain the
pending queues.  `nthreads = 0` raises `ZeroDivisionError` at the modulo. -/
def fluxLoop (fs : String → Option (DataFrame × String)) (station : String) (level : Nat)
    (data_dir data_type : String) (nthreads lastD : Nat) :
    List Nat → Nat → Option String → List UnitResult → FluxAcc → Except PyErr FluxAcc
  | [], _, _, _, acc => .ok acc
  | today :: rest, i_day, level_str, q_list, acc =>
    if nthreads == 0 then .error .zeroDivision
    else
      match locateStep level_str station level data_dir data_type (dateStr today) with
      | .error e => .error e
      | .ok (curr_file, level_str') =>
        let r := get_datafile fs curr_file station today
        let acc' := { acc with events := acc.events ++ [.spawn curr_file today] }
        let q' := q_list ++ [r]
        if (i_day + 1) % nthreads == 0 || today == lastD then
          fluxLoop fs station level data_dir data_type nthreads lastD rest (i_day + 1) level_str' [] (drainQ q' acc')
        else
          fluxLoop fs station level data_dir data_type nthreads lastD rest (i_day + 1) level_str' q' acc'

/-- `pd.concat(df_list)` row-wise: raises `ValueError` on an empty list,
otherwise concatenates indexes and aligns columns by name (first-occurrence
order), filling missing cells with NaN. -/
def concatRows (dfs : List DataFrame) : Except PyErr DataFrame :=
  match dfs with
  | [] => .error .valueError
  | _ =>
    let names := dfs.foldl (fun acc d =>
      acc ++ (d.cols.map (fun p => p.1)).filter (fun n => !acc.contains n)) []
    .ok { idx := dfs.flatMap (fun d => d.idx)
          cols := names.map (fun n =>
            (n, dfs.flatMap (fun d =>
              match lookupCol d n with
              | some c => c
              | none => d.idx.map (fun _ => none)))) }

/-- `df['time'] = df.index` (lines 118-119): overwrite an existing `time`
column or append a new one holding the index values. -/
def set_time_column (df : DataFrame) : DataFrame :=
  let timeCol := df.idx.map (fun t => some (Value.time t))
  if (df.cols.find? (fun p => p.1 == "time")).isSome
  then ⟨df.idx, df.cols.map (fun p => if p.1 == "time" then (p.1, timeCol) else p)⟩
  else ⟨df.idx, df.cols ++ [("time", timeCol)]⟩

/-- The on-disk pickle cache directory: its path string, the files directly
inside it (basename and unpickled content), and the filename lists of the
subdirectories that `os.walk` visits afterwards. -/
structure PickleDir where
  name : String
  top : List (String × DataFrame)
  subWalk : List (List String)
deriving DecidableEq, Repr

/-- The filename lists yielded by `os.walk(pickle_dir)`, top directory first. -/
def walkFiles (pdm : PickleDir) : List (List String) :=
  (pdm.top.map (fun p => p.1)) :: pdm.subWalk

/-- `pd.read_pickle(pickle_dir + filename)`: the code always resolves the
found basename against the top-level cache directory, whichever directory of
the walk it was found in. -/
def lookupTop (pdm : PickleDir) (f : String) : Option DataFrame :=
  (pdm.top.find? (fun p => p.1 == f)).map (fun p => p.2)

/-- Does `key` occur at the start of the character list? -/
def listPrefEq : List Char → List Char → Bool
  | [], _ => true
  | _ :: _, [] => false
  | a :: as, b :: bs => a == b && listPrefEq as bs

/-- Does the first character list occur contiguously inside the second? -/
def subMatch (k : List Char) : List Char → Bool
  | [] => listPrefEq k []
  | s@(_ :: rest) => listPrefEq k s || subMatch k rest

/-- Python `key in s` on strings: contiguous substring test. -/
def containsSub (key s : String) : Bool := subMatch key.data s.data

/-- The directory scan of lines 61-70: for each directory of the walk take
the first filename containing `key`, load it from the top-level directory
(raising `FileNotFoundError` when it is not there) and overwrite the running
`(df, code_version)` state; later directories overwrite earlier finds. -/
def pickleScan (pdm : PickleDir) (key : String) :
    List (List String) → Option (DataFrame × Option String) →
    Except PyErr (Option (DataFrame × Option String))
  | [], st => .ok st
  | files :: rest, st =>
    match files.find? (fun f => containsSub key f) with
    | some f =>
      match lookupTop pdm f with
      | some d => pickleScan pdm key rest (some (d, some (reconstructVersion (pdm.name ++ f))))
      | none => .error .fileNotFound
    | none => pickleScan pdm key rest st

/-- The whole cache lookup (lines 59-72): walk the directory and return the
loaded table and rebuilt version when some filename matched. -/
def pickleLookup (pdm : PickleDir) (key : String) :
    Except PyErr (Option (DataFrame × Option String)) :=
  pickleScan pdm key (walkFiles pdm) none

/-- The filename whose content the scan of lines 61-70 ends up keeping: the
first match (in file order) of the last directory (in walk order) that
contains any match. -/
def lastMatch (key : String) (walk : List (List String)) : Option String :=
  walk.foldl (fun acc files =>
    match files.find? (fun g => containsSub key g) with
    | some f => some f
    | none => acc) none

/-- `df.to_pickle(f"{pickle_dir}/{pickled_filename}_{code_version[0:3]}.pkl")`:
add the serialized table to the top-level cache directory. -/
def pickleStore (pdm : PickleDir) (key code_version : String) (df : DataFrame) : PickleDir :=
  { pdm with top := pdm.top ++ [(pickle_store_name key code_version, df)] }

/-- The fetch-merge-store phase of `get_flux_data` (lines 74-137, the
`not was_pickled` branch). -/
def fetchPhase (fs : String → Option (DataFrame × String)) (station : String)
    (start_day end_day level : Nat) (data_dir data_type : String) (nthreads : Nat)
    (pickle_requested : Bool) (key : String) (ev0 : List Event) :
    List Event × Except PyErr (DataFrame × Option String) :=
  let days := day_series start_day end_day
  let lastD := (days.getLast?).getD 0
  match fluxLoop fs station level data_dir data_type nthreads lastD days 0 none [] ⟨[], some "?", ev0⟩ with
  | .error e => (ev0, .error e)
  | .ok acc =>
    -- line 116: the bare `except` builds a fresh empty frame but never
    -- assigns it, so `df` keeps its previous value — the empty frame of
    -- line 56.
    let df := match concatRows acc.df_list with
              | .ok d => d
              | .error _ => emptyDF
    let df := set_time_column df
    if pickle_requested then
      match acc.code_version with
      | some cv => (acc.events ++ [.store (pickle_store_name key cv)], .ok (df, some cv))
      | none => (acc.events, .error .typeError)
    else
      (acc.events, .ok (df, acc.code_version))

/-- `get_flux_data`: validate the station, optionally consult the pickle
cache, and otherwise run the batched fetch phase.  Returns the recorded
event trace together with the `(df, code_version)` result or the raised
exception. -/
def get_flux_data (fs : String → Option (DataFrame × String)) (station : String)
    (start_day end_day level : Nat) (data_dir data_type : String) (nthreads : Nat)
    (pickle_dir : Option PickleDir) : List Event × Except PyErr (DataFrame × Option String) :=
  if !(station_list.any (fun name => station == name)) then
    ([], .error .ioError)
  else
    let key := pickled_filename station level data_type
    match pickle_dir with
    | some pdm =>
      match pickleLookup pdm key with
      | .error e => ([.cacheLookup], .error e)
      | .ok (some (df0, cv0)) => ([.cacheLookup], .ok (df0, cv0))
      | .ok none => fetchPhase fs station start_day end_day level data_dir data_type nthreads true key [.cacheLookup]
    | none => fetchPhase fs station start_day end_day level data_dir data_type nthreads false key []

/-- `df.add_suffix(sfx)`: rename every column by appending `sfx`. -/
def DataFrame.add_suffix (df : DataFrame) (sfx : String) : DataFrame :=
  ⟨df.idx, df.cols.map (fun p => (p.1 ++ sfx, p.2))⟩

/-- The unit fetcher of the plot script, `get_asfs_data`: like
`get_datafile` but suffixing every column with `_{curr_station}` before
publishing. -/
def get_asfs_data (fs : String → Option (DataFrame × String))
    (curr_file curr_station : String) (today : Nat) : UnitResult :=
  match fs curr_file with
  | some (d, v) => ⟨d.add_suffix ("_" ++ curr_station), some v⟩
  | none => ⟨emptyDF, none⟩

/-- Reindex a column from its old index to a new one, filling NaN where the
new index has no counterpart. -/
def reindexCol (old ni : List Nat) (col : List (Option Value)) : List (Option Value) :=
  ni.map (fun t =>
    match old.indexOf? t with
    | some i => col.getD i none
    | none => none)

/-- `pd.concat([a, b], axis=1)`: with identical indexes the columns are
appended side by side; otherwise the indexes are outer-joined and every
column reindexed. -/
def concatAxis1 (a b : DataFrame) : DataFrame :=
  if a.idx = b.idx then ⟨a.idx, a.cols ++ b.cols⟩
  else
    let ni := a.idx ++ b.idx.filter (fun t => !a.idx.contains t)
    ⟨ni, a.cols.map (fun p => (p.1, reindexCol a.idx ni p.2))
          ++ b.cols.map (fun p => (p.1, reindexCol b.idx ni p.2))⟩

/-- The per-day station merge of the plot script's `main` (lines 187-189):
start from an empty frame, take the first non-empty table as-is, and
column-concatenate the rest. -/
def merge_stations_day (dfs : List DataFrame) : DataFrame :=
  dfs.foldl (fun df_today d => if df_today.isEmpty then d else concatAxis1 df_today d) emptyDF

/-- The spawn events of a trace, in order. -/
def spawnsOf (es : List Event) : List (String × Nat) :=
  es.filterMap (fun e => match e with | .spawn p d => some (p, d) | _ => none)

/-- The drained unit results of a trace, in order. -/
def drainsOf (es : List Event) : List UnitResult :=
  es.filterMap (fun e => match e with | .drain r => some r | _ => none)

/-- The unit result obtained for one day at level 1. -/
def unit_fetch (fs : String → Option (DataFrame × String))
    (station data_dir data_type : String) (d : Nat) : UnitResult :=
  get_datafile fs (path_level1 station data_dir data_type (dateStr d)) station d

/-! ## Helper lemmas -/

lemma reconcileVersion_nil (init : Option String) : reconcileVersion init [] = init := rfl

lemma reconcileVersion_cons (init : Option String) (v : Option String) (vs : List (Option String)) :
    reconcileVersion init (v :: vs)
      = reconcileVersion (match v with | some a => some a | none => init) vs := rfl

lemma reconcileVersion_append (init : Option String) (xs ys : List (Option String)) :
    reconcileVersion init (xs ++ ys) = reconcileVersion (reconcileVersion init xs) ys :=
  List.foldl_append ..

lemma reconcileVersion_eq_lastSome (vs : List (Option String)) :
    ∀ init, reconcileVersion init vs = ((vs.filterMap id).getLast?).elim init some := by
  induction vs with
  | nil => intro init; rfl
  | cons v t ih =>
    intro init
    cases v with
    | none => simpa [reconcileVersion_cons] using ih init
    | some a =>
      rw [reconcileVersion_cons]
      have h1 := ih (some a)
      cases ht : (t.filterMap id).getLast? with
      | none =>
        have hnil : t.filterMap id = [] := by
          cases hf : t.filterMap id with
          | nil => rfl
          | cons b l => rw [hf] at ht; simp [List.getLast?_cons] at ht
        simp [h1, ht, List.filterMap_cons, hnil]
      | some c =>
        have hne : t.filterMap id ≠ [] := by
          intro hf; rw [hf] at ht; simp at ht
        have : ((a :: t.filterMap id).getLast?) = some c := by
          cases hf : t.filterMap id with
          | nil => exact absurd hf hne
          | cons b l => rw [hf] at ht; rw [List.getLast?_cons_cons, ht]
        simp [h1, ht, List.filterMap_cons, this]

lemma rpartSplit_of_not_mem (c : Char) (ys : List Char) (h : c ∉ ys) :
    rpartSplit c ys = none := by
  induction ys with
  | nil => rfl
  | cons y t ih =>
    have hy : ¬ (y = c) := fun hh => h (hh ▸ List.mem_cons_self _ _)
    have ht : c ∉ t := fun hm => h (List.mem_cons_of_mem _ hm)
    simp [rpartSplit, ih ht, hy]

lemma rpartSplit_append (c : Char) (xs ys : List Char) (h : c ∉ ys) :
    rpartSplit c (xs ++ c :: ys) = some (xs, ys) := by
  induction xs with
  | nil => simp [rpartSplit, rpartSplit_of_not_mem c ys h]
  | cons x t ih => simp [rpartSplit, ih]

lemma listPrefEq_append_self (k r : List Char) : listPrefEq k (k ++ r) = true := by
  induction k with
  | nil => rfl
  | cons a t ih => simp [listPrefEq, ih]

lemma subMatch_of_listPrefEq (k s : List Char) (h : listPrefEq k s = true) :
    subMatch k s = true := by
  cases s with
  | nil =>
    cases k with
    | nil => rfl
    | cons a t => simp [listPrefEq] at h
  | cons a t =>
    show (listPrefEq k (a :: t) || subMatch k t) = true
    rw [h, Bool.true_or]

lemma subMatch_append_self (k r : List Char) : subMatch k (k ++ r) = true :=
  subMatch_of_listPrefEq _ _ (listPrefEq_append_self k r)

lemma containsSub_self_append (key s : String) (h : ∃ t, s.data = key.data ++ t) :
    containsSub key s = true := by
  obtain ⟨t, ht⟩ := h
  rw [containsSub, ht]
  exact subMatch_append_self _ _

/-! ## Claim theorems (first group) -/

/-- C5: for every input whose file is absent, the unit fetcher
`get_datafile` does not raise and publishes the empty table followed by a
null version tag on its channel. -/
theorem missing_file_unit_publishes_empty (fs : String → Option (DataFrame × String))
    (curr_file curr_station : String) (today : Nat) (h : fs curr_file = none) :
    get_datafile fs curr_file curr_station today = ⟨emptyDF, none⟩ := by
  simp [get_datafile, h]

theorem missing_file_unit_publishes_empty_witness :
    ((fun _ => none) : String → Option (DataFrame × String)) "/d/absent.nc" = none
      ∧ get_datafile (fun _ => none) "/d/absent.nc" "tower" 0 = ⟨emptyDF, none⟩ :=
  ⟨rfl, missing_file_unit_publishes_empty (fun _ => none) "/d/absent.nc" "tower" 0 rfl⟩

/-- C9: for every station outside the recognised set, `get_flux_data` fails
with the station error before any cache lookup, fetch, or scheduling work:
the event trace of the run is empty. -/
theorem invalid_station_aborts_before_work (fs : String → Option (DataFrame × String))
    (station : String) (start_day end_day level : Nat) (data_dir data_type : String)
    (nthreads : Nat) (pickle_dir : Option PickleDir) (h : station ∉ station_list) :
    get_flux_data fs station start_day end_day level data_dir data_type nthreads pickle_dir
      = ([], .error .ioError) := by
  have hany : station_list.any (fun name => station == name) = false := by
    rw [List.any_eq_false]
    intro a ha hbeq
    exact h (beq_iff_eq.mp hbeq ▸ ha)
  simp [get_flux_data, hany]

theorem invalid_station_aborts_before_work_witness :
    "asfs20" ∉ station_list
      ∧ get_flux_data (fun _ => none) "asfs20" 0 3 1 "/d/" "slow" 1 none
          = ([], .error .ioError) :=
  ⟨by decide, invalid_station_aborts_before_work (fun _ => none) "asfs20" 0 3 1 "/d/" "slow" 1
    none (by decide)⟩

/-- C3: version reconciliation is last-non-null-wins in processing order:
the running tag after any tag list is the last non-null entry (or the
initial value when there is none); on versions `[null, "2.1", null, "2.3"]`
the result is `"2.3"`, and a concrete 4-day `get_flux_data` run whose files
carry those versions in chronological order returns `"2.3"`. -/
theorem version_reconciliation_last_non_null :
    (∀ (init : Option String) (vs : List (Option String)),
        reconcileVersion init vs = ((vs.filterMap id).getLast?).elim init some)
    ∧ reconcileVersion (some "?") [none, some "2.1", none, some "2.3"] = some "2.3"
    ∧ ((get_flux_data
          (fun p =>
            if p == path_level1 "asfs30" "/d/" "slow" (dateStr 1) then
              some (⟨[1], [("temp", [some (.num 1)])]⟩, "2.1")
            else if p == path_level1 "asfs30" "/d/" "slow" (dateStr 3) then
              some (⟨[3], [("temp", [some (.num 3)])]⟩, "2.3")
            else none)
          "asfs30" 0 3 1 "/d/" "slow" 3 none).2.toOption.map (fun p => p.2))
        = some (some "2.3") :=
  ⟨fun init vs => reconcileVersion_eq_lastSome vs init, rfl, rfl⟩

/-- C4 (failing input): for levels 2 and 3 the path construction inside
`get_flux_data`'s loop does not terminate normally: `level_str` is assigned
for those levels only after `subdir` is interpolated, so the first iteration
reads an unbound local and raises; level 1 builds the `ingest` path as
specified.  A whole `get_flux_data` call at level 2 therefore raises. -/
theorem level_locator_unbound_for_levels_two_three :
    locateStep none "asfs30" 2 "/Projects/MOSAiC/" "slow" (dateStr 0) = .error .nameError
    ∧ locateStep none "asfs30" 3 "/Projects/MOSAiC/" "slow" (dateStr 0) = .error .nameError
    ∧ locateStep none "asfs30" 1 "/Projects/MOSAiC/" "slow" (dateStr 0)
        = .ok ("/Projects/MOSAiC/asfs30/1_level_ingest_asfs30//mosasfs30slow.level1.0.nc",
               some "ingest")
    ∧ (get_flux_data (fun _ => none) "asfs30" 0 2 2 "/Projects/MOSAiC/" "slow" 1 none).2
        = .error .nameError :=
  ⟨rfl, rfl, rfl, rfl⟩

/-- C10 (counterexample): for the reconciled tag `"2.1.."` the version
rebuilt on a cache hit is exactly the same string, although the tag is
longer than three characters — the cache-hit version does not always differ
from the fresh one. -/
theorem version_tag_fixed_point_roundtrip :
    reconstructVersion ("/p/" ++ pickle_store_name (pickled_filename "asfs30" 1 "slow") "2.1..")
        = "2.1.."
    ∧ ("2.1.." : String).length > 3 :=
  ⟨rfl, by decide⟩

lemma rpartition_eq (s : String) (c : Char) (b a : List Char)
    (h : rpartSplit c s.data = some (b, a)) :
    rpartition s c = (⟨b⟩, ⟨[c]⟩, ⟨a⟩) := by
  rw [rpartition, h]

/-- C10 (amended): the store writes under `{key}_{v[0:3]}.pkl` and the
cache-hit reconstruction yields `v[0:3]` followed by `".."`; hence the
cache-hit version differs from the fresh tag `v` exactly when `v` is not
itself of that reconstructed form. -/
theorem cached_version_is_truncated_tag (pdName station data_type v : String) (level : Nat)
    (h : '_' ∉ (v.take 3).data) :
    pickle_store_name (pickled_filename station level data_type) v
        = pickled_filename station level data_type ++ "_" ++ v.take 3 ++ ".pkl"
    ∧ reconstructVersion (pdName ++ pickle_store_name (pickled_filename station level data_type) v)
        = v.take 3 ++ ".."
    ∧ (reconstructVersion
          (pdName ++ pickle_store_name (pickled_filename station level data_type) v) ≠ v
        ↔ v ≠ v.take 3 ++ "..") := by
  have hdata : (pdName ++ pickle_store_name (pickled_filename station level data_type) v).data
      = (pdName.data ++ (pickled_filename station level data_type).data)
        ++ '_' :: ((v.take 3).data ++ '.' :: ['p', 'k', 'l']) := by
    simp [pickle_store_name, String.data_append, List.append_assoc]
  have hysplit : rpartSplit '_'
      (pdName ++ pickle_store_name (pickled_filename station level data_type) v).data
      = some (pdName.data ++ (pickled_filename station level data_type).data,
              (v.take 3).data ++ '.' :: ['p', 'k', 'l']) := by
    rw [hdata]
    apply rpartSplit_append
    intro hm
    rcases List.mem_append.mp hm with hm1 | hm2
    · exact h hm1
    · simp at hm2
  have hdotsplit : rpartSplit '.' ((v.take 3).data ++ '.' :: ['p', 'k', 'l'])
      = some ((v.take 3).data, ['p', 'k', 'l']) := by
    apply rpartSplit_append
    decide
  have h1 : rpartition (pdName ++ pickle_store_name (pickled_filename station level data_type) v) '_'
      = (⟨pdName.data ++ (pickled_filename station level data_type).data⟩, ⟨['_']⟩,
         ⟨(v.take 3).data ++ '.' :: ['p', 'k', 'l']⟩) :=
    rpartition_eq _ _ _ _ hysplit
  have h2 : rpartition (⟨(v.take 3).data ++ '.' :: ['p', 'k', 'l']⟩ : String) '.'
      = (⟨(v.take 3).data⟩, ⟨['.']⟩, ⟨['p', 'k', 'l']⟩) :=
    rpartition_eq _ _ _ _ hdotsplit
  have hrec : reconstructVersion
      (pdName ++ pickle_store_name (pickled_filename station level data_type) v)
      = v.take 3 ++ ".." := by
    simp only [reconstructVersion, h1, h2]
    apply String.ext
    simp [String.data_append]
  exact ⟨rfl, hrec, by rw [hrec]; exact ne_comm⟩

theorem cached_version_is_truncated_tag_witness :
    '_' ∉ ("2.1beta".take 3).data
    ∧ (pickle_store_name (pickled_filename "asfs30" 1 "slow") "2.1beta"
          = pickled_filename "asfs30" 1 "slow" ++ "_" ++ "2.1beta".take 3 ++ ".pkl"
      ∧ reconstructVersion
            ("/p/" ++ pickle_store_name (pickled_filename "asfs30" 1 "slow") "2.1beta")
          = "2.1beta".take 3 ++ ".."
      ∧ (reconstructVersion
            ("/p/" ++ pickle_store_name (pickled_filename "asfs30" 1 "slow") "2.1beta")
            ≠ "2.1beta"
          ↔ "2.1beta" ≠ "2.1beta".take 3 ++ "..")) :=
  ⟨by decide, cached_version_is_truncated_tag "/p/" "asfs30" "slow" "2.1beta" 1 (by decide)⟩

/-- C6: storing a dataset in an empty cache directory under the computed key
and looking it up with the same key (same station, level, data type and
directory) returns the very dataset that was stored — its rows and columns
are unchanged (only the version tag is rebuilt from the filename). -/
theorem pickle_round_trip (pdName station data_type cv : String) (level : Nat)
    (df : DataFrame) :
    pickleLookup (pickleStore ⟨pdName, [], []⟩ (pickled_filename station level data_type) cv df)
        (pickled_filename station level data_type)
      = .ok (some (df, some (reconstructVersion
          (pdName ++ pickle_store_name (pickled_filename station level data_type) cv)))) := by
  have hc : containsSub (pickled_filename station level data_type)
      (pickle_store_name (pickled_filename station level data_type) cv) = true := by
    apply containsSub_self_append
    exact ⟨"_".data ++ (cv.take 3).data ++ ".pkl".data,
      by simp [pickle_store_name, String.data_append, List.append_assoc]⟩
  simp [pickleLookup, pickleStore, walkFiles, pickleScan, lookupTop, List.find?, hc]

/-! ## Scheduler machinery -/

lemma locateStep_one (lvl : Option String) (station data_dir data_type date_str : String) :
    locateStep lvl station 1 data_dir data_type date_str
      = .ok (path_level1 station data_dir data_type date_str, some "ingest") := rfl

lemma drainQ_nil (acc : FluxAcc) : drainQ [] acc = acc := rfl

lemma drainQ_cons (r : UnitResult) (t : List UnitResult) (acc : FluxAcc) :
    drainQ (r :: t) acc = drainQ t
      { df_list := if !r.rows.isEmpty then acc.df_list ++ [r.rows] else acc.df_list
        code_version := match r.version with | some v => some v | none => acc.code_version
        events := acc.events ++ [.drain r] } := rfl

lemma drainQ_events (q : List UnitResult) :
    ∀ acc, (drainQ q acc).events = acc.events ++ q.map Event.drain := by
  induction q with
  | nil => intro acc; simp [drainQ_nil]
  | cons r t ih => intro acc; rw [drainQ_cons, ih]; simp

lemma drainQ_df_list (q : List UnitResult) :
    ∀ acc, (drainQ q acc).df_list
      = acc.df_list ++ ((q.filter (fun r => !r.rows.isEmpty)).map (fun r => r.rows)) := by
  induction q with
  | nil => intro acc; simp [drainQ_nil]
  | cons r t ih =>
    intro acc
    rw [drainQ_cons, ih]
    cases hr : r.rows.isEmpty <;> simp [List.filter_cons, hr]

lemma drainQ_code_version (q : List UnitResult) :
    ∀ acc, (drainQ q acc).code_version
      = reconcileVersion acc.code_version (q.map (fun r => r.version)) := by
  induction q with
  | nil => intro acc; simp [drainQ_nil, reconcileVersion_nil]
  | cons r t ih =>
    intro acc
    rw [drainQ_cons, ih]
    rfl

lemma spawnsOf_append (a b : List Event) : spawnsOf (a ++ b) = spawnsOf a ++ spawnsOf b :=
  List.filterMap_append ..

lemma drainsOf_append (a b : List Event) : drainsOf (a ++ b) = drainsOf a ++ drainsOf b :=
  List.filterMap_append ..

lemma spawnsOf_map_drain (q : List UnitResult) : spawnsOf (q.map Event.drain) = [] := by
  induction q with
  | nil => rfl
  | cons r t ih => simp [spawnsOf, List.filterMap_cons]

lemma drainsOf_map_drain (q : List UnitResult) : drainsOf (q.map Event.drain) = q := by
  induction q with
  | nil => rfl
  | cons r t ih => simpa [drainsOf, List.filterMap_cons] using ih

lemma fluxLoop_nil (fs : String → Option (DataFrame × String)) (station : String)
    (level : Nat) (data_dir data_type : String) (nthreads lastD i : Nat)
    (ls : Option String) (q : List UnitResult) (acc : FluxAcc) :
    fluxLoop fs station level data_dir data_type nthreads lastD [] i ls q acc = .ok acc := rfl

lemma fluxLoop_cons_one (fs : String → Option (DataFrame × String)) (station : String)
    (data_dir data_type : String) (nthreads lastD : Nat) (hn : (nthreads == 0) = false)
    (d : Nat) (rest : List Nat) (i : Nat) (ls : Option String) (q : List UnitResult)
    (acc : FluxAcc) :
    fluxLoop fs station 1 data_dir data_type nthreads lastD (d :: rest) i ls q acc
      = (if (i + 1) % nthreads == 0 || d == lastD then
          fluxLoop fs station 1 data_dir data_type nthreads lastD rest (i + 1) (some "ingest")
            [] (drainQ (q ++ [get_datafile fs (path_level1 station data_dir data_type (dateStr d)) station d])
                { acc with events := acc.events ++ [.spawn (path_level1 station data_dir data_type (dateStr d)) d] })
        else
          fluxLoop fs station 1 data_dir data_type nthreads lastD rest (i + 1) (some "ingest")
            (q ++ [get_datafile fs (path_level1 station data_dir data_type (dateStr d)) station d])
            { acc with events := acc.events ++ [.spawn (path_level1 station data_dir data_type (dateStr d)) d] }) := by
  rw [fluxLoop]
  rw [locateStep_one]
  simp [hn]

/-- Characterisation of the day loop at level 1: whenever the supplied
`lastD` really is the last day of the list, the loop succeeds, spawns one
unit per day in order, drains the pending queue and then exactly one result
per day in submission order, collects the non-empty tables in order, and
folds the version tags in order. -/
lemma fluxLoop_char (fs : String → Option (DataFrame × String)) (station : String)
    (data_dir data_type : String) (nthreads : Nat) (ht : 1 ≤ nthreads) (lastD : Nat) :
    ∀ (days : List Nat), days.getLast? = some lastD →
    ∀ (i : Nat) (ls : Option String) (q : List UnitResult) (acc : FluxAcc),
    ∃ accF, fluxLoop fs station 1 data_dir data_type nthreads lastD days i ls q acc = .ok accF
      ∧ spawnsOf accF.events = spawnsOf acc.events
          ++ days.map (fun d => (path_level1 station data_dir data_type (dateStr d), d))
      ∧ drainsOf accF.events = drainsOf acc.events ++ q
          ++ days.map (unit_fetch fs station data_dir data_type)
      ∧ accF.df_list = acc.df_list
          ++ (((q ++ days.map (unit_fetch fs station data_dir data_type)).filter
                (fun r => !r.rows.isEmpty)).map (fun r => r.rows))
      ∧ accF.code_version = reconcileVersion acc.code_version
          ((q ++ days.map (unit_fetch fs station data_dir data_type)).map (fun r => r.version)) := by
  have hn : (nthreads == 0) = false := by
    cases nthreads with
    | zero => omega
    | succ m => rfl
  intro days
  induction days with
  | nil => intro h; simp at h
  | cons d rest ih =>
    intro h i ls q acc
    rw [fluxLoop_cons_one fs station data_dir data_type nthreads lastD hn]
    cases rest with
    | nil =>
      have hd : d = lastD := by simpa using h
      have hcond : ((i + 1) % nthreads == 0 || d == lastD) = true := by
        subst hd; simp
      rw [hcond]
      simp only [if_true]
      refine ⟨_, fluxLoop_nil .., ?_, ?_, ?_, ?_⟩
      · rw [drainQ_events, spawnsOf_append, spawnsOf_append, spawnsOf_map_drain]
        simp [spawnsOf, List.filterMap_cons, unit_fetch]
      · rw [drainQ_events, drainsOf_append, drainsOf_append, drainsOf_map_drain]
        simp [drainsOf, List.filterMap_cons, unit_fetch]
      · rw [drainQ_df_list]
        simp [unit_fetch]
      · rw [drainQ_code_version]
        simp [unit_fetch]
    | cons d2 rest2 =>
      have hrest : (d2 :: rest2).getLast? = some lastD := by
        rw [← h]; exact (List.getLast?_cons_cons ..).symm
      cases hcond : ((i + 1) % nthreads == 0 || d == lastD) with
      | true =>
        simp only [if_true]
        obtain ⟨accF, hloop, h1, h2, h3, h4⟩ :=
          ih hrest (i + 1) (some "ingest") []
            (drainQ (q ++ [get_datafile fs (path_level1 station data_dir data_type (dateStr d)) station d])
              { acc with events := acc.events ++ [.spawn (path_level1 station data_dir data_type (dateStr d)) d] })
        refine ⟨accF, hloop, ?_, ?_, ?_, ?_⟩
        · rw [h1, drainQ_events, spawnsOf_append, spawnsOf_append, spawnsOf_map_drain]
          simp [spawnsOf, List.filterMap_cons, unit_fetch]
        · rw [h2, drainQ_events, drainsOf_append, drainsOf_append, drainsOf_map_drain]
          simp [drainsOf, List.filterMap_cons, unit_fetch]
        · rw [h3, drainQ_df_list]
          cases hr : (get_datafile fs (path_level1 station data_dir data_type (dateStr d)) station d).rows.isEmpty <;>
            simp [unit_fetch, List.filter_append, List.filter_cons, hr, List.map_append,
              List.append_assoc]
        · rw [h4, drainQ_code_version, ← reconcileVersion_append]
          congr 1
          simp [unit_fetch, List.map_append, List.append_assoc]
      | false =>
        simp only [Bool.false_eq_true, if_false]
        obtain ⟨accF, hloop, h1, h2, h3, h4⟩ :=
          ih hrest (i + 1) (some "ingest")
            (q ++ [get_datafile fs (path_level1 station data_dir data_type (dateStr d)) station d])
            { acc with events := acc.events ++ [.spawn (path_level1 station data_dir data_type (dateStr d)) d] }
        refine ⟨accF, hloop, ?_, ?_, ?_, ?_⟩
        · rw [h1, spawnsOf_append]
          simp [spawnsOf, List.filterMap_cons, unit_fetch]
        · rw [h2, drainsOf_append]
          simp [drainsOf, List.filterMap_cons, unit_fetch]
        · rw [h3]
          simp [unit_fetch, List.filter_append]
        · rw [h4]
          simp [unit_fetch]

lemma day_series_decomp (start_day end_day : Nat) (hr : start_day ≤ end_day) :
    day_series start_day end_day
      = ((List.range (end_day - start_day)).map (fun i => start_day + i)) ++ [end_day] := by
  rw [day_series]
  have h1 : end_day + 1 - start_day = (end_day - start_day) + 1 := by omega
  rw [h1, List.range_succ, List.map_append]
  simp [Nat.add_sub_cancel' hr]

lemma day_series_getLast (start_day end_day : Nat) (hr : start_day ≤ end_day) :
    (day_series start_day end_day).getLast? = some end_day := by
  rw [day_series_decomp start_day end_day hr, List.getLast?_concat]

lemma day_series_length (start_day end_day : Nat) (hr : start_day ≤ end_day) :
    (day_series start_day end_day).length = end_day - start_day + 1 := by
  rw [day_series]
  simp
  omega

lemma station_any_true (station : String) (hs : station ∈ station_list) :
    (station_list.any (fun name => station == name)) = true := by
  rw [List.any_eq_true]
  exact ⟨station, hs, by simp⟩

lemma get_flux_data_no_pickle (fs : String → Option (DataFrame × String)) (station : String)
    (start_day end_day level : Nat) (data_dir data_type : String) (nthreads : Nat)
    (hs : station ∈ station_list) :
    get_flux_data fs station start_day end_day level data_dir data_type nthreads none
      = fetchPhase fs station start_day end_day level data_dir data_type nthreads false
          (pickled_filename station level data_type) [] := by
  simp [get_flux_data, station_any_true station hs]

lemma fetchPhase_of_ok (fs : String → Option (DataFrame × String)) (station : String)
    (start_day end_day : Nat) (data_dir data_type : String) (nthreads : Nat)
    (key : String) (ev0 : List Event) (accF : FluxAcc)
    (hloop : fluxLoop fs station 1 data_dir data_type nthreads
        (((day_series start_day end_day).getLast?).getD 0)
        (day_series start_day end_day) 0 none [] ⟨[], some "?", ev0⟩ = .ok accF) :
    fetchPhase fs station start_day end_day 1 data_dir data_type nthreads false key ev0
      = (accF.events,
         .ok (set_time_column (match concatRows accF.df_list with
                | .ok d => d
                | .error _ => emptyDF), accF.code_version)) := by
  rw [fetchPhase, hloop]
  rfl

/-- C1: for every valid day range and every `nthreads ≥ 1`, the batch
scheduler inside `get_flux_data` launches exactly one unit fetch per day of
the range (`end_day - start_day + 1` of them, in chronological order) and
drains exactly one `UnitResult` per unit, collected in chronological
submission order — in particular the final partial batch is always drained
because the batch-complete check also fires on the last day of the range. -/
theorem scheduler_drains_all_units (fs : String → Option (DataFrame × String))
    (station : String) (start_day end_day : Nat) (data_dir data_type : String)
    (nthreads : Nat) (hs : station ∈ station_list) (hr : start_day ≤ end_day)
    (ht : 1 ≤ nthreads) :
    spawnsOf (get_flux_data fs station start_day end_day 1 data_dir data_type nthreads none).1
        = (day_series start_day end_day).map
            (fun d => (path_level1 station data_dir data_type (dateStr d), d))
    ∧ drainsOf (get_flux_data fs station start_day end_day 1 data_dir data_type nthreads none).1
        = (day_series start_day end_day).map (unit_fetch fs station data_dir data_type)
    ∧ (day_series start_day end_day).length = end_day - start_day + 1 := by
  have hlast : (day_series start_day end_day).getLast?
      = some (((day_series start_day end_day).getLast?).getD 0) := by
    rw [day_series_getLast start_day end_day hr]
    rfl
  obtain ⟨accF, hloop, h1, h2, h3, h4⟩ :=
    fluxLoop_char fs station data_dir data_type nthreads ht
      (((day_series start_day end_day).getLast?).getD 0)
      (day_series start_day end_day) hlast 0 none [] ⟨[], some "?", []⟩
  rw [get_flux_data_no_pickle fs station start_day end_day 1 data_dir data_type nthreads hs,
    fetchPhase_of_ok fs station start_day end_day data_dir data_type nthreads
      (pickled_filename station 1 data_type) [] accF hloop]
  refine ⟨?_, ?_, day_series_length start_day end_day hr⟩
  · rw [h1]; simp [spawnsOf]
  · rw [h2]; simp [drainsOf]

theorem scheduler_drains_all_units_witness :
    "tower" ∈ station_list ∧ (0 : Nat) ≤ 4 ∧ 1 ≤ 2
    ∧ (spawnsOf (get_flux_data (fun _ => none) "tower" 0 4 1 "/d/" "slow" 2 none).1
          = (day_series 0 4).map (fun d => (path_level1 "tower" "/d/" "slow" (dateStr d), d))
      ∧ drainsOf (get_flux_data (fun _ => none) "tower" 0 4 1 "/d/" "slow" 2 none).1
          = (day_series 0 4).map (unit_fetch (fun _ => none) "tower" "/d/" "slow")
      ∧ (day_series 0 4).length = 4 - 0 + 1) :=
  ⟨by decide, by decide, by decide,
    scheduler_drains_all_units (fun _ => none) "tower" 0 4 "/d/" "slow" 2
      (by decide) (by decide) (by decide)⟩

/-- C2 (counterexample): a concrete 3-day range with no file anywhere
returns, without raising, an empty `Dataset` (zero rows, only the synthetic
`time` column) — but the returned version tag is the sentinel string `"?"`,
which is not a null value. -/
theorem all_missing_returns_sentinel_version :
    (get_flux_data (fun _ => none) "asfs30" 0 2 1 "/d/" "slow" 1 none).2
        = .ok (⟨[], [("time", [])]⟩, some "?")
    ∧ (some "?" : Option String) ≠ none :=
  ⟨rfl, by decide⟩

/-- C2 (amended): for every day range in which no source file exists for any
day, `get_flux_data` returns, without raising, an empty `Dataset` (zero
rows, only the synthetic `time` column) together with the sentinel version
tag `"?"` — the initial placeholder, kept because no unit observed a
non-null version. -/
theorem all_missing_empty_dataset_sentinel (fs : String → Option (DataFrame × String))
    (station : String) (start_day end_day : Nat) (data_dir data_type : String)
    (nthreads : Nat) (hs : station ∈ station_list) (hr : start_day ≤ end_day)
    (ht : 1 ≤ nthreads)
    (hmiss : ∀ d ∈ day_series start_day end_day,
        fs (path_level1 station data_dir data_type (dateStr d)) = none) :
    (get_flux_data fs station start_day end_day 1 data_dir data_type nthreads none).2
      = .ok (⟨[], [("time", [])]⟩, some "?") := by
  have hlast : (day_series start_day end_day).getLast?
      = some (((day_series start_day end_day).getLast?).getD 0) := by
    rw [day_series_getLast start_day end_day hr]
    rfl
  obtain ⟨accF, hloop, h1, h2, h3, h4⟩ :=
    fluxLoop_char fs station data_dir data_type nthreads ht
      (((day_series start_day end_day).getLast?).getD 0)
      (day_series start_day end_day) hlast 0 none [] ⟨[], some "?", []⟩
  have hunit : ∀ d ∈ day_series start_day end_day,
      unit_fetch fs station data_dir data_type d = ⟨emptyDF, none⟩ := by
    intro d hd
    simp [unit_fetch, get_datafile, hmiss d hd]
  have hdfl : accF.df_list = [] := by
    rw [h3]
    have : (([] ++ (day_series start_day end_day).map (unit_fetch fs station data_dir data_type)).filter
        (fun (r : UnitResult) => !r.rows.isEmpty)) = [] := by
      rw [List.filter_eq_nil_iff]
      intro r hrr
      simp only [List.nil_append, List.mem_map] at hrr
      obtain ⟨d, hd, rfl⟩ := hrr
      rw [hunit d hd]
      decide
    rw [this]
    rfl
  have hcv : accF.code_version = some "?" := by
    rw [h4, reconcileVersion_eq_lastSome]
    have : ((([] ++ (day_series start_day end_day).map (unit_fetch fs station data_dir data_type)).map
        (fun (r : UnitResult) => r.version)).filterMap id) = [] := by
      rw [List.filterMap_eq_nil_iff]
      intro v hv
      simp only [List.nil_append, List.mem_map] at hv
      obtain ⟨r, hrr, rfl⟩ := hv
      obtain ⟨d, hd, rfl⟩ := hrr
      rw [hunit d hd]
      rfl
    rw [this]
    rfl
  rw [get_flux_data_no_pickle fs station start_day end_day 1 data_dir data_type nthreads hs,
    fetchPhase_of_ok fs station start_day end_day data_dir data_type nthreads
      (pickled_filename station 1 data_type) [] accF hloop]
  rw [hdfl, hcv]
  rfl

theorem all_missing_empty_dataset_sentinel_witness :
    "asfs30" ∈ station_list ∧ (0 : Nat) ≤ 2 ∧ 1 ≤ 2
    ∧ (get_flux_data (fun _ => none) "asfs30" 0 2 1 "/e/" "slow" 2 none).2
        = .ok (⟨[], [("time", [])]⟩, some "?") :=
  ⟨by decide, by decide, by decide,
    all_missing_empty_dataset_sentinel (fun _ => none) "asfs30" 0 2 "/e/" "slow" 2
      (by decide) (by decide) (by decide) (fun d hd => rfl)⟩

/-! ## Cache lookup characterisation -/

lemma reconcileVersion_isSome (a : String) (vs : List (Option String)) :
    ∃ c, reconcileVersion (some a) vs = some c := by
  rw [reconcileVersion_eq_lastSome]
  cases h : (vs.filterMap id).getLast? with
  | none => exact ⟨a, rfl⟩
  | some c => exact ⟨c, rfl⟩

lemma pickleScan_char (pdm : PickleDir) (key : String) :
    ∀ (walk : List (List String)),
    (walk.all (fun files =>
        match files.find? (fun g => containsSub key g) with
        | some f => (lookupTop pdm f).isSome
        | none => true) = true) →
    ∀ (st : Option String),
    pickleScan pdm key walk (st.map (fun f =>
        ((lookupTop pdm f).getD emptyDF, some (reconstructVersion (pdm.name ++ f)))))
      = .ok ((walk.foldl (fun acc files =>
            match files.find? (fun g => containsSub key g) with
            | some f => some f
            | none => acc) st).map (fun f =>
          ((lookupTop pdm f).getD emptyDF, some (reconstructVersion (pdm.name ++ f))))) := by
  intro walk
  induction walk with
  | nil => intro _ st; rfl
  | cons files rest ih =>
    intro h st
    rw [List.all_cons, Bool.and_eq_true] at h
    obtain ⟨hfile, hrest⟩ := h
    cases hfind : files.find? (fun g => containsSub key g) with
    | none =>
      rw [pickleScan, hfind]
      have := ih hrest st
      rw [this, List.foldl_cons, hfind]
    | some f =>
      rw [hfind] at hfile
      obtain ⟨d, hd⟩ := Option.isSome_iff_exists.mp hfile
      simp only [pickleScan, hfind, hd, List.foldl_cons]
      have hstate : (some (d, some (reconstructVersion (pdm.name ++ f)))
            : Option (DataFrame × Option String))
          = (some f).map (fun f =>
              ((lookupTop pdm f).getD emptyDF, some (reconstructVersion (pdm.name ++ f)))) := by
        simp [hd]
      rw [hstate]
      exact ih hrest (some f)

lemma pickleLookup_char (pdm : PickleDir) (key : String)
    (hreads : ((walkFiles pdm).all (fun files =>
        match files.find? (fun g => containsSub key g) with
        | some f => (lookupTop pdm f).isSome
        | none => true)) = true) :
    pickleLookup pdm key
      = .ok ((lastMatch key (walkFiles pdm)).map (fun f =>
          ((lookupTop pdm f).getD emptyDF, some (reconstructVersion (pdm.name ++ f))))) := by
  have := pickleScan_char pdm key (walkFiles pdm) hreads none
  simpa [pickleLookup, lastMatch] using this

lemma fetchPhase_of_ok_store (fs : String → Option (DataFrame × String)) (station : String)
    (start_day end_day : Nat) (data_dir data_type : String) (nthreads : Nat)
    (key : String) (ev0 : List Event) (accF : FluxAcc) (cv : String)
    (hloop : fluxLoop fs station 1 data_dir data_type nthreads
        (((day_series start_day end_day).getLast?).getD 0)
        (day_series start_day end_day) 0 none [] ⟨[], some "?", ev0⟩ = .ok accF)
    (hcv : accF.code_version = some cv) :
    fetchPhase fs station start_day end_day 1 data_dir data_type nthreads true key ev0
      = (accF.events ++ [.store (pickle_store_name key cv)],
         .ok (set_time_column (match concatRows accF.df_list with
                | .ok d => d
                | .error _ => emptyDF), some cv)) := by
  rw [fetchPhase, hloop]
  simp [hcv]

/-- C7 (counterexample): with a cache tree whose top directory and a
subdirectory both contain matches, the first matching filename of the whole
walk is the `2.1` file, yet `get_flux_data` returns the content of the
`9.9` file — the first match of the *last* matching directory — which
differs from the first match's content. -/
theorem cache_hit_not_first_match :
    ((walkFiles ⟨"/p/",
        [("asfs30_1_slow_df_2.1.pkl", ⟨[1], [("temp", [some (.num 1)])]⟩),
         ("asfs30_1_slow_df_9.9.pkl", ⟨[2], [("temp", [some (.num 2)])]⟩)],
        [["asfs30_1_slow_df_9.9.pkl"]]⟩).flatMap
          (fun files => files.filter (fun g => containsSub "asfs30_1_slow_df" g))).head?
        = some "asfs30_1_slow_df_2.1.pkl"
    ∧ get_flux_data (fun _ => none) "asfs30" 0 1 1 "/d/" "slow" 1
        (some ⟨"/p/",
          [("asfs30_1_slow_df_2.1.pkl", ⟨[1], [("temp", [some (.num 1)])]⟩),
           ("asfs30_1_slow_df_9.9.pkl", ⟨[2], [("temp", [some (.num 2)])]⟩)],
          [["asfs30_1_slow_df_9.9.pkl"]]⟩)
        = ([.cacheLookup], .ok (⟨[2], [("temp", [some (.num 2)])]⟩, some "9.9.."))
    ∧ (⟨[2], [("temp", [some (.num 2)])]⟩ : DataFrame)
        ≠ ⟨[1], [("temp", [some (.num 1)])]⟩ :=
  ⟨rfl, rfl, by decide⟩

/-- C7 (amended): whenever the walk of the cache directory finds any
filename containing the lookup key, `get_flux_data` returns — with no
fetch, scheduling, merge or store work at all (the trace holds only the
lookup) — the first matching filename of the last directory in walk order
that contains a match, loaded from the top-level directory; when the
traversal completes with no match, the full fetch path runs (one unit
spawned per day of the range). -/
theorem cache_hit_last_dir_first_match (fs : String → Option (DataFrame × String))
    (station : String) (start_day end_day : Nat) (data_dir data_type : String)
    (nthreads : Nat) (pdm : PickleDir)
    (hs : station ∈ station_list) (hr : start_day ≤ end_day) (ht : 1 ≤ nthreads)
    (hreads : ((walkFiles pdm).all (fun files =>
        match files.find? (fun g => containsSub (pickled_filename station 1 data_type) g) with
        | some f => (lookupTop pdm f).isSome
        | none => true)) = true) :
    (∀ f0 df0, lastMatch (pickled_filename station 1 data_type) (walkFiles pdm) = some f0 →
        lookupTop pdm f0 = some df0 →
        get_flux_data fs station start_day end_day 1 data_dir data_type nthreads (some pdm)
          = ([.cacheLookup], .ok (df0, some (reconstructVersion (pdm.name ++ f0)))))
    ∧ (lastMatch (pickled_filename station 1 data_type) (walkFiles pdm) = none →
        spawnsOf (get_flux_data fs station start_day end_day 1 data_dir data_type nthreads
            (some pdm)).1
          = (day_series start_day end_day).map
              (fun d => (path_level1 station data_dir data_type (dateStr d), d))) := by
  have hlookup := pickleLookup_char pdm (pickled_filename station 1 data_type) hreads
  constructor
  · intro f0 df0 hlm hread
    rw [hlm] at hlookup
    simp only [Option.map_some'] at hlookup
    rw [hread] at hlookup
    simp only [Option.getD_some] at hlookup
    simp [get_flux_data, station_any_true station hs, hlookup]
  · intro hlm
    rw [hlm] at hlookup
    simp only [Option.map_none'] at hlookup
    have hlast : (day_series start_day end_day).getLast?
        = some (((day_series start_day end_day).getLast?).getD 0) := by
      rw [day_series_getLast start_day end_day hr]
      rfl
    obtain ⟨accF, hloop, h1, h2, h3, h4⟩ :=
      fluxLoop_char fs station data_dir data_type nthreads ht
        (((day_series start_day end_day).getLast?).getD 0)
        (day_series start_day end_day) hlast 0 none [] ⟨[], some "?", [.cacheLookup]⟩
    obtain ⟨cv, hcv⟩ := reconcileVersion_isSome "?"
      ((([] : List UnitResult)
        ++ (day_series start_day end_day).map (unit_fetch fs station data_dir data_type)).map
        (fun r => r.version))
    have hmain : get_flux_data fs station start_day end_day 1 data_dir data_type nthreads
        (some pdm)
        = fetchPhase fs station start_day end_day 1 data_dir data_type nthreads true
            (pickled_filename station 1 data_type) [.cacheLookup] := by
      simp [get_flux_data, station_any_true station hs, hlookup]
    rw [hmain, fetchPhase_of_ok_store fs station start_day end_day data_dir data_type nthreads
      (pickled_filename station 1 data_type) [.cacheLookup] accF cv hloop (h4.trans hcv)]
    show spawnsOf (accF.events ++ [.store _]) = _
    rw [spawnsOf_append, h1]
    simp [spawnsOf]

theorem cache_hit_last_dir_first_match_witness :
    (0 : Nat) ≤ 1
    ∧ get_flux_data (fun _ => none) "asfs30" 0 1 1 "/d/" "slow" 1
        (some ⟨"/p/", [("asfs30_1_slow_df_3.2.pkl", ⟨[7], [("temp", [some (.num 5)])]⟩)], []⟩)
        = ([.cacheLookup],
           .ok (⟨[7], [("temp", [some (.num 5)])]⟩,
                some (reconstructVersion ("/p/" ++ "asfs30_1_slow_df_3.2.pkl")))) :=
  ⟨by decide,
    (cache_hit_last_dir_first_match (fun _ => none) "asfs30" 0 1 "/d/" "slow" 1
        ⟨"/p/", [("asfs30_1_slow_df_3.2.pkl", ⟨[7], [("temp", [some (.num 5)])]⟩)], []⟩
        (by decide) (by decide) (by decide) (by decide)).1
      "asfs30_1_slow_df_3.2.pkl" ⟨[7], [("temp", [some (.num 5)])]⟩ rfl rfl⟩

/-! ## Multi-station merge -/

lemma string_append_left_cancel {x s t : String} (h : x ++ s = x ++ t) : s = t := by
  have hd : x.data ++ s.data = x.data ++ t.data := by
    rw [← String.data_append, ← String.data_append, h]
  exact String.ext (List.append_cancel_left hd)

lemma string_append_right_cancel {x y s : String} (h : x ++ s = y ++ s) : x = y := by
  have hd : x.data ++ s.data = y.data ++ s.data := by
    rw [← String.data_append, ← String.data_append, h]
  exact String.ext (List.append_cancel_right hd)

lemma append_ne_of_suffix_ne (x y s t : String) (hlen : s.data.length = t.data.length)
    (hst : s ≠ t) : x ++ s ≠ y ++ t := by
  intro h
  have hd : x.data ++ s.data = y.data ++ t.data := by
    rw [← String.data_append, ← String.data_append, h]
  have hx : x.data.length = y.data.length := by
    have h1 := congrArg List.length hd
    rw [List.length_append, List.length_append] at h1
    omega
  obtain ⟨_, h2⟩ := List.append_inj hd hx
  exact hst (String.ext h2)

lemma append_right_beq (a n sfx : String) : (a ++ sfx == n ++ sfx) = (a == n) := by
  cases h : (a == n) with
  | true =>
    have := beq_iff_eq.mp h
    subst this
    simp
  | false =>
    have hne : a ≠ n := by
      intro hh
      subst hh
      simp at h
    have : a ++ sfx ≠ n ++ sfx := fun hh => hne (string_append_right_cancel hh)
    exact beq_eq_false_iff_ne.mpr this

lemma find_map_suffixed {α : Type} (sfx n : String) (l : List (String × α)) :
    ((l.map (fun p => (p.1 ++ sfx, p.2))).find? (fun p => p.1 == n ++ sfx))
      = (l.find? (fun p => p.1 == n)).map (fun p => (p.1 ++ sfx, p.2)) := by
  induction l with
  | nil => rfl
  | cons a t ih =>
    simp only [List.map_cons, List.find?_cons, append_right_beq]
    cases h : (a.1 == n) with
    | true => rfl
    | false => exact ih

lemma lookupCol_add_suffix (df : DataFrame) (sfx n : String) :
    lookupCol (df.add_suffix sfx) (n ++ sfx) = lookupCol df n := by
  rw [lookupCol, lookupCol]
  show ((df.cols.map (fun p => (p.1 ++ sfx, p.2))).find? (fun p => p.1 == n ++ sfx)).map
      (fun p => p.2) = _
  rw [find_map_suffixed]
  cases df.cols.find? (fun p => p.1 == n) <;> rfl

/-- C8: two distinct stations from the plotted set, each contributing a
column with the same physical name, never collide in the per-day merge:
every column of each station's fetched table is renamed with the suffix
`_<station>` before merging, the two suffixed names are distinct, and each
station's cells are retrievable unchanged under its own suffixed name. -/
theorem multi_station_merge_no_collision (fs : String → Option (DataFrame × String))
    (sA sB fA fB : String) (dfA dfB : DataFrame) (vA vB : String) (d : Nat)
    (c : String) (colA colB : List (Option Value))
    (hA : sA ∈ sleds_to_plot) (hB : sB ∈ sleds_to_plot) (hne : sA ≠ sB)
    (hfA : fs fA = some (dfA, vA)) (hfB : fs fB = some (dfB, vB))
    (hidx : dfA.idx = dfB.idx) (hidxA : dfA.idx ≠ []) (hcolsA : dfA.cols ≠ [])
    (hcA : lookupCol dfA c = some colA) (hcB : lookupCol dfB c = some colB) :
    (merge_stations_day [(get_asfs_data fs fA sA d).rows,
        (get_asfs_data fs fB sB d).rows]).cols.map (fun p => p.1)
        = dfA.cols.map (fun p => p.1 ++ ("_" ++ sA))
          ++ dfB.cols.map (fun p => p.1 ++ ("_" ++ sB))
    ∧ c ++ ("_" ++ sA) ≠ c ++ ("_" ++ sB)
    ∧ lookupCol (merge_stations_day [(get_asfs_data fs fA sA d).rows,
        (get_asfs_data fs fB sB d).rows]) (c ++ ("_" ++ sA)) = some colA
    ∧ lookupCol (merge_stations_day [(get_asfs_data fs fA sA d).rows,
        (get_asfs_data fs fB sB d).rows]) (c ++ ("_" ++ sB)) = some colB := by
  have hrA : (get_asfs_data fs fA sA d).rows = dfA.add_suffix ("_" ++ sA) := by
    simp [get_asfs_data, hfA]
  have hrB : (get_asfs_data fs fB sB d).rows = dfB.add_suffix ("_" ++ sB) := by
    simp [get_asfs_data, hfB]
  have hsfx : ("_" ++ sA) ≠ ("_" ++ sB) := fun h => hne (string_append_left_cancel h)
  have hlen : ("_" ++ sA).data.length = ("_" ++ sB).data.length := by
    simp only [sleds_to_plot, List.mem_cons, List.not_mem_nil, or_false] at hA hB
    rcases hA with rfl | rfl | rfl <;> rcases hB with rfl | rfl | rfl <;> decide
  have hAempty : (dfA.add_suffix ("_" ++ sA)).isEmpty = false := by
    cases h1 : dfA.idx with
    | nil => exact absurd h1 hidxA
    | cons a t =>
      cases h2 : dfA.cols with
      | nil => exact absurd h2 hcolsA
      | cons b u => simp [DataFrame.isEmpty, DataFrame.add_suffix, h1, h2]
  have hmerged : merge_stations_day [(get_asfs_data fs fA sA d).rows,
      (get_asfs_data fs fB sB d).rows]
      = ⟨dfA.idx, (dfA.add_suffix ("_" ++ sA)).cols ++ (dfB.add_suffix ("_" ++ sB)).cols⟩ := by
    rw [merge_stations_day, hrA, hrB]
    simp only [List.foldl_cons, List.foldl_nil]
    have e1 : (emptyDF.isEmpty : Bool) = true := rfl
    rw [e1]
    simp only [if_true]
    rw [hAempty]
    simp only [Bool.false_eq_true, if_false]
    rw [concatAxis1,
      if_pos (show (dfA.add_suffix ("_" ++ sA)).idx = (dfB.add_suffix ("_" ++ sB)).idx from hidx)]
    rfl
  refine ⟨?_, fun h => hsfx (string_append_left_cancel h), ?_, ?_⟩
  · rw [hmerged]
    simp only [DataFrame.add_suffix, List.map_append, List.map_map]
    rfl
  · rw [hmerged, lookupCol]
    show (((dfA.add_suffix ("_" ++ sA)).cols ++ (dfB.add_suffix ("_" ++ sB)).cols).find?
        (fun p => p.1 == c ++ ("_" ++ sA))).map (fun p => p.2) = some colA
    rw [List.find?_append]
    show (((dfA.cols.map (fun p => (p.1 ++ ("_" ++ sA), p.2))).find?
        (fun p => p.1 == c ++ ("_" ++ sA))).or _).map (fun p => p.2) = some colA
    rw [find_map_suffixed]
    obtain ⟨pc, hpc, hpc2⟩ := Option.map_eq_some'.mp hcA
    rw [hpc]
    simp [Option.or, hpc2]
  · rw [hmerged, lookupCol]
    show (((dfA.add_suffix ("_" ++ sA)).cols ++ (dfB.add_suffix ("_" ++ sB)).cols).find?
        (fun p => p.1 == c ++ ("_" ++ sB))).map (fun p => p.2) = some colB
    rw [List.find?_append]
    have hAnone : ((dfA.cols.map (fun p => (p.1 ++ ("_" ++ sA), p.2))).find?
        (fun p => p.1 == c ++ ("_" ++ sB))) = none := by
      rw [List.find?_eq_none]
      intro p hp
      simp only [List.mem_map] at hp
      obtain ⟨a, ha, rfl⟩ := hp
      simp only [beq_iff_eq]
      exact append_ne_of_suffix_ne _ _ _ _ hlen hsfx
    show (((dfA.cols.map (fun p => (p.1 ++ ("_" ++ sA), p.2))).find?
        (fun p => p.1 == c ++ ("_" ++ sB))).or
          (((dfB.cols.map (fun p => (p.1 ++ ("_" ++ sB), p.2))).find?
            (fun p => p.1 == c ++ ("_" ++ sB))))).map (fun p => p.2) = some colB
    rw [hAnone, find_map_suffixed]
    obtain ⟨pc, hpc, hpc2⟩ := Option.map_eq_some'.mp hcB
    rw [hpc]
    simp [Option.or, hpc2]

theorem multi_station_merge_no_collision_witness :
    (merge_stations_day [(get_asfs_data
        (fun p => if p == "fa" then some (⟨[5], [("temp", [some (.num 1)])]⟩, "v")
                  else if p == "fb" then some (⟨[5], [("temp", [some (.num 2)])]⟩, "v")
                  else none) "fa" "asfs30" 0).rows,
        (get_asfs_data
        (fun p => if p == "fa" then some (⟨[5], [("temp", [some (.num 1)])]⟩, "v")
                  else if p == "fb" then some (⟨[5], [("temp", [some (.num 2)])]⟩, "v")
                  else none) "fb" "asfs40" 0).rows]).cols.map (fun p => p.1)
        = ([("temp", [some (Value.num 1)])] : List (String × List (Option Value))).map
            (fun p => p.1 ++ ("_" ++ "asfs30"))
          ++ ([("temp", [some (Value.num 2)])] : List (String × List (Option Value))).map
            (fun p => p.1 ++ ("_" ++ "asfs40"))
    ∧ "temp" ++ ("_" ++ "asfs30") ≠ "temp" ++ ("_" ++ "asfs40")
    ∧ lookupCol (merge_stations_day [(get_asfs_data
        (fun p => if p == "fa" then some (⟨[5], [("temp", [some (.num 1)])]⟩, "v")
                  else if p == "fb" then some (⟨[5], [("temp", [some (.num 2)])]⟩, "v")
                  else none) "fa" "asfs30" 0).rows,
        (get_asfs_data
        (fun p => if p == "fa" then some (⟨[5], [("temp", [some (.num 1)])]⟩, "v")
                  else if p == "fb" then some (⟨[5], [("temp", [some (.num 2)])]⟩, "v")
                  else none) "fb" "asfs40" 0).rows]) ("temp" ++ ("_" ++ "asfs30"))
        = some [some (Value.num 1)]
    ∧ lookupCol (merge_stations_day [(get_asfs_data
        (fun p => if p == "fa" then some (⟨[5], [("temp", [some (.num 1)])]⟩, "v")
                  else if p == "fb" then some (⟨[5], [("temp", [some (.num 2)])]⟩, "v")
                  else none) "fa" "asfs30" 0).rows,
        (get_asfs_data
        (fun p => if p == "fa" then some (⟨[5], [("temp", [some (.num 1)])]⟩, "v")
                  else if p == "fb" then some (⟨[5], [("temp", [some (.num 2)])]⟩, "v")
                  else none) "fb" "asfs40" 0).rows]) ("temp" ++ ("_" ++ "asfs40"))
        = some [some (Value.num 2)] :=
  multi_station_merge_no_collision
    (fun p => if p == "fa" then some (⟨[5], [("temp", [some (.num 1)])]⟩, "v")
              else if p == "fb" then some (⟨[5], [("temp", [some (.num 2)])]⟩, "v")
              else none)
    "asfs30" "asfs40" "fa" "fb"
    ⟨[5], [("temp", [some (.num 1)])]⟩ ⟨[5], [("temp", [some (.num 2)])]⟩ "v" "v" 0
    "temp" [some (.num 1)] [some (.num 2)]
    (by decide) (by decide) (by decide) (by decide) (by decide)
    rfl (by decide) (by decide) (by decide) (by decide)
